import Mathlib

set_option autoImplicit false

/-!
Shallow embedding of the generative-content orchestration layer of the
Vitality Elite repository: the response-handling paths of
`src/services/geminiService.ts` and the session image/video caches of
`src/components/MealPlanner.tsx` and `src/components/WorkoutPlanner.tsx`.

Remote calls are modelled by taking the backend response as an explicit
argument; thrown JavaScript exceptions are modelled with `Except`.
-/

/-- Minimal JSON value tree, the result of a successful `JSON.parse`.
Object fields keep insertion order, as JavaScript objects do.  Numbers are
restricted to integers: every number appearing in this development is an
integer, so the restriction does not affect any statement below. -/
inductive Json where
  | null
  | bool (b : Bool)
  | num (n : Int)
  | str (s : String)
  | arr (elems : List Json)
  | obj (fields : List (String × Json))

/-- Whitespace skipping for the JSON grammar (space, tab, newline, carriage
return, exactly the characters `JSON.parse` skips). -/
def skipWs : List Char → List Char
  | [] => []
  | c :: cs =>
    if c == ' ' || c == '\n' || c == '\t' || c == '\r' then skipWs cs
    else c :: cs

/-- Translation of a JSON string escape character. -/
def escChar (c : Char) : Option Char :=
  if c = '"' then some '"'
  else if c = '\\' then some '\\'
  else if c = '/' then some '/'
  else if c = 'n' then some '\n'
  else if c = 't' then some '\t'
  else if c = 'r' then some '\r'
  else if c = 'b' then some (Char.ofNat 8)
  else if c = 'f' then some (Char.ofNat 12)
  else none

/-- Body of a JSON string literal, after the opening quote.  Returns the
decoded string and the remaining input. -/
def parseStringBody : List Char → List Char → Except String (String × List Char)
  | _, [] => .error "unterminated string"
  | acc, '"' :: cs => .ok (String.mk acc.reverse, cs)
  | _, ['\\'] => .error "unterminated string"
  | acc, '\\' :: e :: cs =>
    match escChar e with
    | some c => parseStringBody (c :: acc) cs
    | none => .error "unsupported escape"
  | acc, c :: cs => parseStringBody (c :: acc) cs

/-- Digits to a natural number, most significant first. -/
def digitsToNat (ds : List Char) : Nat :=
  ds.foldl (fun n c => n * 10 + (c.toNat - 48)) 0

/-- JSON integer literal (optional minus sign followed by digits). -/
def parseNumber (cs : List Char) : Except String (Json × List Char) :=
  let signed := match cs with
    | '-' :: rest => (true, rest)
    | _ => (false, cs)
  let spanned := signed.2.span (fun c => c.isDigit)
  if spanned.1.isEmpty then .error "unexpected token"
  else
    let n : Int := Int.ofNat (digitsToNat spanned.1)
    .ok (.num (if signed.1 then -n else n), spanned.2)

/-- Strips a literal keyword such as `null` from the front of the input. -/
def stripLit (lit : String) (cs : List Char) : Option (List Char) :=
  if lit.toList.isPrefixOf cs then some (cs.drop lit.length) else none

mutual

/-- Recursive-descent JSON value parser.  The fuel argument only bounds the
recursion; `JSON_parse` supplies more fuel than any input can consume. -/
def parseValue : Nat → List Char → Except String (Json × List Char)
  | 0, _ => .error "input too deeply nested"
  | fuel + 1, cs0 =>
    match skipWs cs0 with
    | [] => .error "unexpected end of input"
    | c :: rest =>
      if c = '"' then
        match parseStringBody [] rest with
        | .ok (s, cs1) => .ok (.str s, cs1)
        | .error e => .error e
      else if c = '\x7b' then
        match skipWs rest with
        | '\x7d' :: cs2 => .ok (.obj [], cs2)
        | cs1 => parseMembers fuel cs1 []
      else if c = '[' then
        match skipWs rest with
        | ']' :: cs2 => .ok (.arr [], cs2)
        | cs1 => parseElems fuel cs1 []
      else
        match stripLit "null" (c :: rest) with
        | some cs1 => .ok (.null, cs1)
        | none =>
          match stripLit "true" (c :: rest) with
          | some cs1 => .ok (.bool true, cs1)
          | none =>
            match stripLit "false" (c :: rest) with
            | some cs1 => .ok (.bool false, cs1)
            | none => parseNumber (c :: rest)

/-- Elements of a JSON array, after the opening bracket (nonempty case). -/
def parseElems : Nat → List Char → List Json → Except String (Json × List Char)
  | 0, _, _ => .error "input too deeply nested"
  | fuel + 1, cs, acc =>
    match parseValue fuel cs with
    | .error e => .error e
    | .ok (v, cs1) =>
      match skipWs cs1 with
      | ',' :: cs2 => parseElems fuel cs2 (v :: acc)
      | ']' :: cs2 => .ok (.arr (v :: acc).reverse, cs2)
      | _ => .error "expected comma or closing bracket"

/-- Members of a JSON object, after the opening brace (nonempty case). -/
def parseMembers : Nat → List Char → List (String × Json) →
    Except String (Json × List Char)
  | 0, _, _ => .error "input too deeply nested"
  | fuel + 1, cs, acc =>
    match skipWs cs with
    | '"' :: cs1 =>
      match parseStringBody [] cs1 with
      | .error e => .error e
      | .ok (k, cs2) =>
        match skipWs cs2 with
        | ':' :: cs3 =>
          match parseValue fuel cs3 with
          | .error e => .error e
          | .ok (v, cs4) =>
            match skipWs cs4 with
            | ',' :: cs5 => parseMembers fuel cs5 ((k, v) :: acc)
            | '\x7d' :: cs5 => .ok (.obj ((k, v) :: acc).reverse, cs5)
            | _ => .error "expected comma or closing brace"
        | _ => .error "expected colon"
    | _ => .error "expected string key"

end

/-- Model of JavaScript `JSON.parse`: `.ok` is the parsed value, `.error`
models the thrown `SyntaxError`. -/
def JSON_parse (text : String) : Except String Json :=
  match parseValue (text.length * 2 + 16) text.toList with
  | .error e => .error e
  | .ok (v, rest) =>
    match skipWs rest with
    | [] => .ok v
    | _ => .error "unexpected trailing characters"

/-- Property lookup on a parsed JSON object (`none` models `undefined`). -/
def jGetField (j : Json) (key : String) : Option Json :=
  match j with
  | .obj fields => (fields.find? (fun p => p.1 == key)).map Prod.snd
  | _ => none

/-! ## JavaScript value helpers

`Option String` models a JavaScript string-or-undefined value; `none` is
`undefined`.  Truthiness of such a value: `undefined` and the empty string
are falsy, every other string is truthy. -/

/-- Truthiness of a JavaScript string-or-undefined value. -/
def jsTruthy : Option String → Bool
  | some s => !(s == "")
  | none => false

/-- JavaScript `a || b` on string-or-undefined values. -/
def jsOr (a b : Option String) : Option String :=
  if jsTruthy a then a else b

/-- JavaScript `a || d` with a (truthy) string literal default `d`. -/
def jsOrD (a : Option String) (d : String) : String :=
  match a with
  | some s => if s == "" then d else s
  | none => d

/-- JavaScript string interpolation of a string-or-undefined value:
`undefined` prints as the text `undefined`. -/
def jsInterp : Option String → String
  | some s => s
  | none => "undefined"

/-! ## Structured plan synthesis (`getMealPlan`, `getWorkoutPlan`)

`src/services/geminiService.ts` lines 94-168 and 246-290.  Both functions
end with `return JSON.parse(response.text || fallback)` and contain no
`try`/`catch`: the embedding takes the structured-generation response text
(`none` models an absent `text` field) and returns the `JSON.parse`
result, where `.error` models the thrown `SyntaxError` escaping to the
caller. -/

/-- The fallback string of `getMealPlan` (geminiService.ts line 167),
parsed when `response.text` is absent or empty. -/
def mealPlanFallbackText : String :=
  "\x7b\"days\":[], \"prepStrategy\": \x7b\"batchPrepTasks\":[], \"storageTips\":[], \"shoppingList\":[]\x7d\x7d"

/-- The canonical empty meal-plan result: empty day list and a prep
strategy whose three lists are all empty. -/
def canonicalEmptyMealPlan : Json :=
  .obj [("days", .arr []),
        ("prepStrategy",
          .obj [("batchPrepTasks", .arr []),
                ("storageTips", .arr []),
                ("shoppingList", .arr [])])]

/-- Response handling of `getMealPlan` (geminiService.ts line 167):
`JSON.parse(response.text || fallback)`. -/
def getMealPlan (responseText : Option String) : Except String Json :=
  JSON_parse (jsOrD responseText mealPlanFallbackText)

/-- Response handling of `getWorkoutPlan` (geminiService.ts line 289):
`JSON.parse(response.text || '[]')`. -/
def getWorkoutPlan (responseText : Option String) : Except String Json :=
  JSON_parse (jsOrD responseText "[]")

/-! ## Grounded gym recommendations (`getGymRecommendations`)

`src/services/geminiService.ts` lines 170-244.  Stage 1 yields grounding
chunks; the code filters them by `chunk.maps?.uri || chunk.web?.uri`
(truthiness) and maps the survivors to `GroundingLink` records.  Stage 2
text is parsed inside `try`/`catch`; on success each parsed gym is
spread together with `groundingLinks: groundingLinks.slice(0, 3)`; any
exception (parse failure, or `.map` on a non-array) yields `[]`. -/

/-- One retrieval source inside a grounding chunk: `uri` and `title` are
possibly-absent string fields. -/
structure ChunkSource where
  uri : Option String
  title : Option String

/-- A grounding chunk as read from `groundingMetadata.groundingChunks`:
the `maps` and `web` sub-objects may each be absent. -/
structure GroundingChunk where
  maps : Option ChunkSource
  web : Option ChunkSource

/-- The `GroundingLink` record built at geminiService.ts lines 201-204. -/
structure GroundingLink where
  uri : Option String
  title : String

/-- The citation list built at geminiService.ts lines 199-204:
`groundingChunks.filter(c => c.maps?.uri || c.web?.uri).map(...)`. -/
def groundingLinksOf (chunks : List GroundingChunk) : List GroundingLink :=
  (chunks.filter fun c =>
      jsTruthy (c.maps.bind ChunkSource.uri) || jsTruthy (c.web.bind ChunkSource.uri)).map
    fun c =>
      { uri := jsOr (c.maps.bind ChunkSource.uri) (c.web.bind ChunkSource.uri),
        title := jsOrD (jsOr (c.maps.bind ChunkSource.title) (c.web.bind ChunkSource.title))
                   "View Source" }

/-- A gym in the result of `getGymRecommendations`: the parsed stage-2
JSON value together with the `groundingLinks` field added by the spread
`\x7b...gym, groundingLinks: groundingLinks.slice(0, 3)\x7d`. -/
structure GymResult where
  data : Json
  groundingLinks : List GroundingLink

/-- Response handling of `getGymRecommendations` (geminiService.ts lines
198-243), taking the stage-1 grounding chunks and the stage-2 response
text.  A stage-2 parse producing anything but an array makes
`parsedGyms.map` throw; the surrounding `try`/`catch` turns every such
exception into `[]`. -/
def getGymRecommendations (chunks : List GroundingChunk)
    (stage2Text : Option String) : List GymResult :=
  let links := groundingLinksOf chunks
  match JSON_parse (jsOrD stage2Text "[]") with
  | .ok (.arr gyms) => gyms.map fun g => { data := g, groundingLinks := links.take 3 }
  | _ => []

/-! ## Image synthesis and edit (`generateMealImage`, `editMealImage`)

`src/services/geminiService.ts` lines 39-92.  The prompt-building and
transport parts are outbound I/O; the embedding takes the parts of
`response.candidates[0].content.parts` and models the shared payload
extraction `parts.find(p => p.inlineData)`. -/

/-- An inline binary payload of a response part. -/
structure InlineData where
  mimeType : String
  data : String

/-- A response content part: `inlineData` is present or absent, and a
present object is truthy regardless of its contents. -/
structure ResponsePart where
  inlineData : Option InlineData

/-- `parts.find(p => p.inlineData)` (geminiService.ts lines 60 and 87). -/
def findInlinePart (parts : List ResponsePart) : Option ResponsePart :=
  parts.find? fun p => p.inlineData.isSome

/-- Response handling of `generateMealImage` (geminiService.ts lines
60-64): a data URL when an inline payload exists, otherwise the empty
string. -/
def generateMealImage (responseParts : List ResponsePart) : String :=
  match findInlinePart responseParts with
  | some p =>
    match p.inlineData with
    | some d => "data:" ++ d.mimeType ++ ";base64," ++ d.data
    | none => ""
  | none => ""

/-- Response handling of `editMealImage` (geminiService.ts lines 87-91):
a data URL when an inline payload exists, otherwise the original
`base64Image` argument unchanged. -/
def editMealImage (base64Image : String) (responseParts : List ResponsePart) : String :=
  match findInlinePart responseParts with
  | some p =>
    match p.inlineData with
    | some d => "data:" ++ d.mimeType ++ ";base64," ++ d.data
    | none => base64Image
  | none => base64Image

/-! ## Exercise video synthesis (`getExerciseVideo`)

`src/services/geminiService.ts` lines 292-326.  The backend is modelled
by the number of poll iterations the `while (!operation.done)` loop runs
(`polls`), the `generatedVideos[0].video.uri` of the final operation
(`downloadLink`, absent when the done operation carries no video), and
the `process.env.API_KEY` value.  The function records every message
passed to `onProgress`, in order, alongside the returned locator. -/

/-- The milestone message emitted inside the poll loop at a given
`pollCount` (geminiService.ts lines 313-317), if any. -/
def pollMilestone (pollCount : Nat) : Option String :=
  if pollCount = 2 then some "Synthesizing Movement Dynamics..."
  else if pollCount = 4 then some "Mapping Muscle Group Activation..."
  else if pollCount = 7 then some "Refining Biomechanical Precision..."
  else if pollCount = 10 then some "Rendering Atmospheric Lighting..."
  else if pollCount = 14 then some "Finalizing Visual Sequence..."
  else none

/-- Messages emitted by the remaining iterations of the poll loop, given
the current `pollCount`.  Each iteration increments `pollCount`, emits the
milestone for the new count (if any), sleeps and re-polls. -/
def pollLoopMessages : Nat → Nat → List String
  | 0, _ => []
  | n + 1, pollCount =>
    (pollMilestone (pollCount + 1)).toList ++ pollLoopMessages n (pollCount + 1)

/-- The full `onProgress` message sequence of a completed
`getExerciseVideo` call whose loop ran `polls` iterations. -/
def getExerciseVideoMessages (polls : Nat) : List String :=
  "Initializing Bio-Visual Simulation..." ::
  "Accessing Neural Compute Pipeline..." ::
  (pollLoopMessages polls 0 ++ ["Simulation Complete. Finalizing Stream."])

/-- Embedding of a completed `getExerciseVideo` call: the emitted progress
messages and the returned locator
`` `${downloadLink}&key=${process.env.API_KEY}` `` (geminiService.ts line
325), where an absent value interpolates as the text `undefined`. -/
def getExerciseVideo (polls : Nat) (downloadLink : Option String)
    (apiKey : Option String) : List String × String :=
  (getExerciseVideoMessages polls,
   jsInterp downloadLink ++ "&key=" ++ jsInterp apiKey)

/-! ## Session content cache

`SESSION_IMAGE_CACHE` (`src/components/MealPlanner.tsx` lines 8-9) and
`VIDEO_CACHE` (`src/components/WorkoutPlanner.tsx` line 8) are plain
JavaScript `Record<string, string>` objects.  A record is modelled as an
association list with at most one binding per key; assignment overwrites
the existing binding in place.

The lookup discipline of `MealImage` (MealPlanner.tsx lines 25-26 and
50-69) and `handleOpenDemo` (WorkoutPlanner.tsx lines 155-159) reads the
record through JavaScript truthiness (`CACHE[key] || null` respectively
`if (CACHE[key])`): an absent binding and an empty-string binding are
both treated as a miss.  On a miss the generation factory is awaited and
its result assigned to the record. -/

/-- Property read on a string record (`none` models `undefined`). -/
def jsRecordGet (cache : List (String × String)) (key : String) : Option String :=
  (cache.find? fun p => p.1 == key).map Prod.snd

/-- The truthy cache read `CACHE[key] || null` used by both components:
an empty-string value reads as a miss. -/
def jsTruthyGet (cache : List (String × String)) (key : String) : Option String :=
  match jsRecordGet cache key with
  | some v => if v == "" then none else some v
  | none => none

/-- Property assignment `CACHE[key] = value` on a string record: the
first binding for the key is overwritten in place, otherwise the binding
is appended. -/
def recordSet : List (String × String) → String → String → List (String × String)
  | [], k, v => [(k, v)]
  | p :: rest, k, v => if p.1 == k then (k, v) :: rest else p :: recordSet rest k v

/-- Number of bindings a record holds for a key. -/
def countKey : List (String × String) → String → Nat
  | [], _ => 0
  | p :: rest, k => (if p.1 == k then 1 else 0) + countKey rest k

/-- One sequential cache access, the `getOrCreateImage(key, factory)`
discipline of `MealImage` (MealPlanner.tsx lines 25-26, 50-69): a truthy
hit returns the cached locator without generation; a miss awaits the
factory, stores its result and returns it.  The result is the updated
cache, the locator handed to the caller, and the number of factory
invocations performed (0 or 1). -/
def getOrCreateImage (cache : List (String × String)) (key : String)
    (factory : String → String) : List (String × String) × String × Nat :=
  match jsTruthyGet cache key with
  | some v => (cache, v, 0)
  | none =>
    let url := factory key
    (recordSet cache key url, url, 1)

/-- The cache overwrite `SESSION_IMAGE_CACHE[mealName] = url` performed
by `updateMealImageInState` after an image edit (MealPlanner.tsx lines
156-158), the `replace(key, locator)` of the specification. -/
def replaceImage (cache : List (String × String)) (key locator : String) :
    List (String × String) :=
  recordSet cache key locator

/-! ### Interleaving model for two concurrent cache requests

`MealImage` awaits `generateMealImage` between reading and writing the
cache, so two mounted instances with the same key interleave as follows:
a `read` step inspects the cache and either finishes with the cached
locator or issues a generation call (entering flight); a `complete` step
finishes an in-flight request, storing the generated locator.  The state
counts every generation call issued. -/

/-- Phase of one cache requester. -/
inductive ReqPhase where
  | idle
  | inFlight
  | done (locator : String)

/-- Joint state of the cache and two concurrent requesters. -/
structure PairState where
  cache : List (String × String)
  genCalls : Nat
  r1 : ReqPhase
  r2 : ReqPhase

/-- Scheduler events for the two requesters. -/
inductive PairStep where
  | read1
  | read2
  | complete1
  | complete2

/-- Read transition of one requester against the shared cache. -/
def readPhase (key : String) (cache : List (String × String)) (r : ReqPhase) :
    ReqPhase × Nat :=
  match r with
  | .idle =>
    match jsTruthyGet cache key with
    | some v => (.done v, 0)
    | none => (.inFlight, 1)
  | other => (other, 0)

/-- One scheduler event applied to the joint state; `gen` is the locator
produced by the (deterministic) generation call for `key`. -/
def pairStep (key gen : String) (s : PairState) : PairStep → PairState
  | .read1 =>
    let rn := readPhase key s.cache s.r1
    { s with r1 := rn.1, genCalls := s.genCalls + rn.2 }
  | .read2 =>
    let rn := readPhase key s.cache s.r2
    { s with r2 := rn.1, genCalls := s.genCalls + rn.2 }
  | .complete1 =>
    match s.r1 with
    | .inFlight => { s with cache := recordSet s.cache key gen, r1 := .done gen }
    | _ => s
  | .complete2 =>
    match s.r2 with
    | .inFlight => { s with cache := recordSet s.cache key gen, r2 := .done gen }
    | _ => s

/-- Runs a schedule of events from a starting state. -/
def runPair (key gen : String) (steps : List PairStep) (s : PairState) : PairState :=
  steps.foldl (pairStep key gen) s

/-- The empty starting state: empty cache, no calls, both requesters idle. -/
def pairStart : PairState := ⟨[], 0, .idle, .idle⟩

/-! ## Auxiliary definitions used by the claim statements -/

/-- Whether a modelled call ended in a thrown exception. -/
def isThrown : Except String Json → Bool
  | .error _ => true
  | .ok _ => false

/-- A syntactically-well-formed payload that carries one day but omits the
required `prepStrategy` field. -/
def daysOnlyPayload : String := "\x7b\"days\":[\x7b\"day\":\"Day 1\"\x7d]\x7d"

/-- The value `JSON.parse` produces for `daysOnlyPayload`. -/
def daysOnlyResult : Json := .obj [("days", .arr [.obj [("day", .str "Day 1")]])]

/-- A stage-2 extraction payload whose single venue has null coordinates. -/
def nullCoordPayload : String :=
  "[\x7b\"name\":\"X\",\"lat\":null,\"lng\":null\x7d]"

/-- Position of each progress message in the fixed milestone sequence of
`getExerciseVideo`; any other string maps past the end. -/
def milestoneIndex (msg : String) : Nat :=
  if msg = "Initializing Bio-Visual Simulation..." then 0
  else if msg = "Accessing Neural Compute Pipeline..." then 1
  else if msg = "Synthesizing Movement Dynamics..." then 2
  else if msg = "Mapping Muscle Group Activation..." then 3
  else if msg = "Refining Biomechanical Precision..." then 4
  else if msg = "Rendering Atmospheric Lighting..." then 5
  else if msg = "Finalizing Visual Sequence..." then 6
  else if msg = "Simulation Complete. Finalizing Stream." then 7
  else 8

/-! ## Claim C1 -/

/-- C1 counterexample: on the non-empty response text `not json`, both
`getMealPlan` and `getWorkoutPlan` throw (the `JSON.parse` exception
escapes), instead of returning the canonical empty result. -/
theorem c1_counterexample :
    isThrown (getMealPlan (some "not json")) = true ∧
    isThrown (getWorkoutPlan (some "not json")) = true :=
  ⟨rfl, rfl⟩

/-- C1 (amended): when the structured response text is absent or empty,
`getMealPlan` and `getWorkoutPlan` return the canonical empty result; but
when the text is non-empty and fails to parse as JSON, the `JSON.parse`
exception propagates to the caller. -/
theorem c1_fallback_only_for_empty_text (s e : String)
    (hs : s ≠ "") (he : JSON_parse s = .error e) :
    getMealPlan none = .ok canonicalEmptyMealPlan ∧
    getMealPlan (some "") = .ok canonicalEmptyMealPlan ∧
    getWorkoutPlan none = .ok (.arr []) ∧
    getWorkoutPlan (some "") = .ok (.arr []) ∧
    getMealPlan (some s) = .error e ∧
    getWorkoutPlan (some s) = .error e := by
  have hbeq : (s == "") = false := beq_eq_false_iff_ne.mpr hs
  refine ⟨rfl, rfl, rfl, rfl, ?_, ?_⟩ <;>
    simp [getMealPlan, getWorkoutPlan, jsOrD, hbeq, he]

/-- C1 witness: the amended behavior at the concrete text `not json`. -/
theorem c1_fallback_only_for_empty_text_witness :
    getMealPlan (some "not json") = .error "unexpected token" ∧
    getWorkoutPlan (some "not json") = .error "unexpected token" :=
  ⟨(c1_fallback_only_for_empty_text "not json" "unexpected token"
      (by decide) rfl).2.2.2.2.1,
   (c1_fallback_only_for_empty_text "not json" "unexpected token"
      (by decide) rfl).2.2.2.2.2⟩

/-! ## Claim C3 -/

/-- C3 counterexample: a payload with a non-empty day list and no
`prepStrategy` field is returned as parsed — an only partly populated result
with days present but the prep strategy missing, which the claim rules
out. -/
theorem c3_counterexample :
    getMealPlan (some daysOnlyPayload) = .ok daysOnlyResult ∧
    jGetField daysOnlyResult "days" = some (.arr [.obj [("day", .str "Day 1")]]) ∧
    jGetField daysOnlyResult "prepStrategy" = none :=
  ⟨rfl, rfl, rfl⟩

/-- C3 (amended): `getMealPlan` performs no validation of the parsed
payload: any successfully parsed non-empty response text is returned
verbatim, whether or not it carries days or a prep strategy.  The
canonical empty result arises only from an absent or empty response
text. -/
theorem c3_no_validation (s : String) (j : Json)
    (hs : s ≠ "") (hj : JSON_parse s = .ok j) :
    getMealPlan (some s) = .ok j ∧
    getMealPlan none = .ok canonicalEmptyMealPlan := by
  have hbeq : (s == "") = false := beq_eq_false_iff_ne.mpr hs
  exact ⟨by simp [getMealPlan, jsOrD, hbeq, hj], rfl⟩

/-- C3 witness: the amended behavior at a concrete parseable payload. -/
theorem c3_no_validation_witness :
    getMealPlan (some "[1]") = .ok (.arr [.num 1]) ∧
    getMealPlan none = .ok canonicalEmptyMealPlan :=
  c3_no_validation "[1]" (.arr [.num 1]) (by decide) rfl

/-! ## Claim C2 -/

/-- C2 counterexample: a discovered venue whose `lat` and `lng` are null
is retained in the output of `getGymRecommendations`, not dropped. -/
theorem c2_counterexample :
    (getGymRecommendations [] (some nullCoordPayload)).length = 1 ∧
    (getGymRecommendations [] (some nullCoordPayload)).map
        (fun g => jGetField g.data "lat") = [some .null] ∧
    (getGymRecommendations [] (some nullCoordPayload)).map
        (fun g => jGetField g.data "lng") = [some .null] :=
  ⟨rfl, rfl, rfl⟩

/-- C2 (amended): `getGymRecommendations` performs no coordinate
filtering: every element of the parsed stage-2 array appears in the
output unchanged (with the citation list attached beside it); numeric
coordinates are demanded only in the extraction prompt, not enforced. -/
theorem c2_no_coordinate_filtering (chunks : List GroundingChunk)
    (text : Option String) (gyms : List Json)
    (h : JSON_parse (jsOrD text "[]") = .ok (.arr gyms)) :
    (getGymRecommendations chunks text).map GymResult.data = gyms := by
  simp [getGymRecommendations, h, List.map_map, Function.comp_def]

/-- C2 witness: the amended passthrough at a concrete payload. -/
theorem c2_no_coordinate_filtering_witness :
    (getGymRecommendations [] (some "[\"g\"]")).map GymResult.data =
      [.str "g"] :=
  c2_no_coordinate_filtering [] (some "[\"g\"]") [.str "g"] rfl

/-! ## Claim C4 -/

/-- C4 counterexample: two concurrent requests for the key
`Grilled Salmon` that both read the empty cache before either generation
completes issue two generation calls, not exactly one. -/
theorem c4_counterexample :
    (runPair "Grilled Salmon" "blob:salmon"
        [.read1, .read2, .complete1, .complete2] pairStart).genCalls = 2 ∧
    (runPair "Grilled Salmon" "blob:salmon"
        [.read1, .read2, .complete1, .complete2] pairStart).r1 =
      .done "blob:salmon" ∧
    (runPair "Grilled Salmon" "blob:salmon"
        [.read1, .read2, .complete1, .complete2] pairStart).r2 =
      .done "blob:salmon" :=
  ⟨rfl, rfl, rfl⟩

/-- C4 (amended): the shared-map cache does not deduplicate in-flight
generations.  When the second request reads the cache while the first
generation is still in flight, each request issues its own generation
call (two calls), though both requesters still end with the generated
locator.  Only when the second request reads after the first has
completed (and the locator is non-empty) is a single call made and its
result reused. -/
theorem c4_no_inflight_dedup (key gen : String) (hgen : gen ≠ "") :
    (runPair key gen [.read1, .read2, .complete1, .complete2] pairStart).genCalls = 2 ∧
    (runPair key gen [.read1, .read2, .complete1, .complete2] pairStart).r1 = .done gen ∧
    (runPair key gen [.read1, .read2, .complete1, .complete2] pairStart).r2 = .done gen ∧
    (runPair key gen [.read1, .complete1, .read2] pairStart).genCalls = 1 ∧
    (runPair key gen [.read1, .complete1, .read2] pairStart).r1 = .done gen ∧
    (runPair key gen [.read1, .complete1, .read2] pairStart).r2 = .done gen := by
  have hbeq : (gen == "") = false := beq_eq_false_iff_ne.mpr hgen
  refine ⟨rfl, rfl, rfl, ?_, ?_, ?_⟩ <;>
    simp [runPair, pairStep, readPhase, pairStart, jsTruthyGet, jsRecordGet,
      recordSet, List.find?, hbeq]

/-- C4 witness: the amended behavior at the concrete key and locator of
the specification scenario. -/
theorem c4_no_inflight_dedup_witness :
    (runPair "Grilled Salmon" "blob:s"
        [.read1, .complete1, .read2] pairStart).genCalls = 1 ∧
    (runPair "Grilled Salmon" "blob:s"
        [.read1, .complete1, .read2] pairStart).r2 = .done "blob:s" :=
  ⟨(c4_no_inflight_dedup "Grilled Salmon" "blob:s" (by decide)).2.2.2.1,
   (c4_no_inflight_dedup "Grilled Salmon" "blob:s" (by decide)).2.2.2.2.2⟩

/-! ## Claim C5 -/

/-- C5 counterexample: when the factory produces the empty locator (as
`generateMealImage` does when the response has no inline payload), the
second sequential lookup misses again — the falsy cached value reads as
absent — so the factory is invoked a second time. -/
theorem c5_counterexample :
    (getOrCreateImage [] "Grilled Salmon" (fun _ => "")).2.2 = 1 ∧
    (getOrCreateImage (getOrCreateImage [] "Grilled Salmon" (fun _ => "")).1
        "Grilled Salmon" (fun _ => "")).2.2 = 1 :=
  ⟨rfl, rfl⟩

/-- The record read after an assignment to the same key yields the
assigned value. -/
theorem jsRecordGet_recordSet (cache : List (String × String)) (k v : String) :
    jsRecordGet (recordSet cache k v) k = some v := by
  induction cache with
  | nil => simp [recordSet, jsRecordGet]
  | cons p rest ih =>
    by_cases h : p.1 == k
    · simp [recordSet, jsRecordGet, h]
    · simpa [recordSet, jsRecordGet, List.find?, h] using ih

/-- C5 (amended): for a key with no cached binding whose factory yields a
non-empty locator, two sequential `getOrCreateImage` calls invoke the
factory exactly once in total, and the second call returns the identical
locator without generating; a factory yielding the empty locator defeats
this (see the counterexample). -/
theorem c5_idempotent_for_truthy_locator (cache : List (String × String))
    (key : String) (factory : String → String)
    (hmiss : jsRecordGet cache key = none) (hfac : factory key ≠ "") :
    getOrCreateImage cache key factory =
      (recordSet cache key (factory key), factory key, 1) ∧
    getOrCreateImage (recordSet cache key (factory key)) key factory =
      (recordSet cache key (factory key), factory key, 0) := by
  have hbeq : (factory key == "") = false := beq_eq_false_iff_ne.mpr hfac
  constructor
  · simp [getOrCreateImage, jsTruthyGet, hmiss]
  · simp [getOrCreateImage, jsTruthyGet, jsRecordGet_recordSet, hbeq]

/-- C5 witness: the amended idempotence at a concrete key and factory. -/
theorem c5_idempotent_for_truthy_locator_witness :
    getOrCreateImage [] "Grilled Salmon" (fun _ => "blob:1") =
      ([("Grilled Salmon", "blob:1")], "blob:1", 1) ∧
    getOrCreateImage [("Grilled Salmon", "blob:1")] "Grilled Salmon"
        (fun _ => "blob:1") =
      ([("Grilled Salmon", "blob:1")], "blob:1", 0) :=
  c5_idempotent_for_truthy_locator [] "Grilled Salmon" (fun _ => "blob:1")
    rfl (by decide)

/-! ## Claim C6 -/

/-- C6 counterexample: replacing the cached value with the empty locator
makes the next lookup regenerate: the factory is invoked once and its
result, not the replacement locator, is returned. -/
theorem c6_counterexample :
    getOrCreateImage (replaceImage [("Salmon", "data:old")] "Salmon" "")
        "Salmon" (fun _ => "data:new") =
      ([("Salmon", "data:new")], "data:new", 1) :=
  rfl

/-- Assigning a key keeps exactly one binding for it when the record held
at most one, and never appends a second binding. -/
theorem countKey_recordSet (cache : List (String × String)) (k v : String) :
    countKey (recordSet cache k v) k = max (countKey cache k) 1 := by
  induction cache with
  | nil => simp [recordSet, countKey]
  | cons p rest ih =>
    by_cases h : p.1 == k
    · simp [recordSet, countKey, h]
    · simp [recordSet, countKey, h, ih]

/-- C6 (amended): after `replace(key, newLocator)` with a non-empty
`newLocator`, a subsequent `getOrCreateImage` returns `newLocator`
without invoking the factory; the replacement overwrites in place,
leaving exactly one binding for the key whenever the record held at most
one before.  An empty `newLocator` defeats the reuse (see the
counterexample). -/
theorem c6_replace_for_truthy_locator (cache : List (String × String))
    (key newLocator : String) (factory : String → String)
    (hv : newLocator ≠ "") :
    getOrCreateImage (replaceImage cache key newLocator) key factory =
      (replaceImage cache key newLocator, newLocator, 0) ∧
    countKey (replaceImage cache key newLocator) key =
      max (countKey cache key) 1 := by
  have hbeq : (newLocator == "") = false := beq_eq_false_iff_ne.mpr hv
  constructor
  · simp [getOrCreateImage, jsTruthyGet, replaceImage, jsRecordGet_recordSet, hbeq]
  · exact countKey_recordSet cache key newLocator

/-- C6 witness: the amended replacement behavior at concrete values. -/
theorem c6_replace_for_truthy_locator_witness :
    getOrCreateImage (replaceImage [("Salmon", "data:old")] "Salmon" "data:new")
        "Salmon" (fun _ => "data:gen") =
      (replaceImage [("Salmon", "data:old")] "Salmon" "data:new", "data:new", 0) ∧
    countKey (replaceImage [("Salmon", "data:old")] "Salmon" "data:new")
        "Salmon" = max (countKey [("Salmon", "data:old")] "Salmon") 1 :=
  c6_replace_for_truthy_locator [("Salmon", "data:old")] "Salmon" "data:new"
    (fun _ => "data:gen") (by decide)

/-! ## Claim C9 -/

/-- C9: when the response carries no inline binary payload,
`generateMealImage` returns the empty locator and `editMealImage` returns
the original input locator unchanged; neither raises. -/
theorem c9_missing_payload_fallbacks (parts : List ResponsePart)
    (base64Image : String) (h : ∀ p ∈ parts, p.inlineData = none) :
    generateMealImage parts = "" ∧
    editMealImage base64Image parts = base64Image := by
  have hfind : findInlinePart parts = none := by
    unfold findInlinePart
    rw [List.find?_eq_none]
    intro p hp
    simp [h p hp]
  exact ⟨by simp [generateMealImage, hfind], by simp [editMealImage, hfind]⟩

/-- C9 witness: the fallbacks at a concrete payload-free response. -/
theorem c9_missing_payload_fallbacks_witness :
    generateMealImage [{ inlineData := none }] = "" ∧
    editMealImage "data:image/png;base64,abc" [{ inlineData := none }] =
      "data:image/png;base64,abc" :=
  c9_missing_payload_fallbacks [{ inlineData := none }]
    "data:image/png;base64,abc"
    (by intro p hp; rw [List.mem_singleton] at hp; subst hp; rfl)

/-! ## Claim C10 -/

/-- C10: whenever the backend reports the media operation done,
`getExerciseVideo` returns the artifact uri with `&key=` and the API key
appended; when the done operation has no generated-video uri, it still
returns the non-empty text `undefined` followed by the key suffix. -/
theorem c10_done_locator_suffix (polls : Nat) (apiKey : Option String) :
    (∀ uri : String,
      (getExerciseVideo polls (some uri) apiKey).2 =
        uri ++ "&key=" ++ jsInterp apiKey) ∧
    (getExerciseVideo polls none apiKey).2 =
      "undefined&key=" ++ jsInterp apiKey ∧
    (getExerciseVideo polls none apiKey).2 ≠ "" := by
  refine ⟨fun uri => rfl, rfl, fun hcontra => ?_⟩
  have hlen := congrArg String.length hcontra
  simp [getExerciseVideo, jsInterp, String.length_append] at hlen
  exact absurd hlen.1 (by decide)

/-- C10 witness: the locator shape at concrete inputs. -/
theorem c10_done_locator_suffix_witness :
    (getExerciseVideo 0 none (some "K")).2 = "undefined&key=K" ∧
    (getExerciseVideo 0 none (some "K")).2 ≠ "" :=
  ⟨(c10_done_locator_suffix 0 (some "K")).2.1,
   (c10_done_locator_suffix 0 (some "K")).2.2⟩

/-! ## Claim C8 -/

/-- A truthy string-or-undefined value is present. -/
theorem jsTruthy_isSome {x : Option String} (h : jsTruthy x = true) :
    x.isSome = true := by
  cases x <;> simp_all [jsTruthy]

/-- C8: stage-1 citations missing both a map uri and a web uri are
discarded (restricting the chunks to those with a present uri leaves the
citation list unchanged), and every venue of the stage-2 result carries
identically the first at most 3 surviving citations. -/
theorem c8_citations_attached (chunks : List GroundingChunk)
    (text : Option String) :
    (getGymRecommendations chunks text).map GymResult.groundingLinks =
      List.replicate (getGymRecommendations chunks text).length
        ((groundingLinksOf chunks).take 3) ∧
    groundingLinksOf chunks =
      groundingLinksOf (chunks.filter fun c =>
        (c.maps.bind ChunkSource.uri).isSome ||
        (c.web.bind ChunkSource.uri).isSome) := by
  constructor
  · unfold getGymRecommendations
    split
    · simp [List.map_map, Function.comp_def, List.map_const']
    · simp
  · unfold groundingLinksOf
    rw [List.filter_filter]
    refine congrArg _ (List.filter_congr ?_)
    intro c _
    cases hm : c.maps.bind ChunkSource.uri <;>
      cases hw : c.web.bind ChunkSource.uri <;> simp [jsTruthy]

/-! ## Claim C7 -/

/-- Every message the poll loop emits sits strictly between the two
submission messages and the completion message. -/
theorem pollMilestone_index_bounds {c : Nat} {m : String}
    (h : pollMilestone c = some m) :
    2 ≤ milestoneIndex m ∧ milestoneIndex m ≤ 6 := by
  unfold pollMilestone at h
  split_ifs at h <;>
    first
      | exact Option.noConfusion h
      | (cases h; decide)

/-- Milestones emitted at later poll counts have strictly larger
indices. -/
theorem pollMilestone_mono {c c' : Nat} {m m' : String} (hcc : c < c')
    (h : pollMilestone c = some m) (h' : pollMilestone c' = some m') :
    milestoneIndex m < milestoneIndex m' := by
  unfold pollMilestone at h h'
  split_ifs at h h' <;>
    first
      | exact Option.noConfusion h
      | exact Option.noConfusion h'
      | (cases h; cases h'; first | decide | omega)

/-- Every message of the remaining poll loop is the milestone of a poll
count strictly greater than the current one. -/
theorem pollLoopMessages_mem {m : String} :
    ∀ n k, m ∈ pollLoopMessages n k → ∃ c, k < c ∧ pollMilestone c = some m := by
  intro n
  induction n with
  | zero =>
    intro k h
    simp [pollLoopMessages] at h
  | succ n ih =>
    intro k h
    simp only [pollLoopMessages, List.mem_append, Option.mem_toList,
      Option.mem_def] at h
    rcases h with h1 | h2
    · exact ⟨k + 1, Nat.lt_succ_self k, h1⟩
    · obtain ⟨c, hk, hc⟩ := ih (k + 1) h2
      exact ⟨c, Nat.lt_trans (Nat.lt_succ_self k) hk, hc⟩

/-- The milestone indices emitted by the poll loop are strictly
increasing. -/
theorem pollLoopMessages_chain :
    ∀ n k, List.Chain' (· < ·) ((pollLoopMessages n k).map milestoneIndex) := by
  intro n
  induction n with
  | zero =>
    intro k
    simp [pollLoopMessages]
  | succ n ih =>
    intro k
    cases hm : pollMilestone (k + 1) with
    | none => simpa [pollLoopMessages, hm] using ih (k + 1)
    | some m0 =>
      have hform : (pollLoopMessages (n + 1) k).map milestoneIndex =
          milestoneIndex m0 ::
            (pollLoopMessages n (k + 1)).map milestoneIndex := by
        simp [pollLoopMessages, hm]
      rw [hform, List.chain'_cons']
      refine ⟨?_, ih (k + 1)⟩
      intro y hy
      cases hl : pollLoopMessages n (k + 1) with
      | nil => rw [hl] at hy; simp at hy
      | cons a t =>
        rw [hl] at hy
        simp only [List.map_cons, List.head?_cons, Option.mem_def,
          Option.some.injEq] at hy
        subst hy
        have hmem : a ∈ pollLoopMessages n (k + 1) := by
          rw [hl]; exact List.mem_cons_self a t
        obtain ⟨c, hk, hc⟩ := pollLoopMessages_mem n (k + 1) hmem
        exact pollMilestone_mono hk hm hc

/-- C7: for every completed media operation, the progress notifications
delivered by `getExerciseVideo` are strictly increasing in milestone
index (no milestone repeats), and the terminal completion notification is
the last message emitted before the locator is returned. -/
theorem c7_progress_monotone (polls : Nat) (downloadLink apiKey : Option String) :
    List.Chain' (· < ·)
      ((getExerciseVideo polls downloadLink apiKey).1.map milestoneIndex) ∧
    (getExerciseVideo polls downloadLink apiKey).1.getLast? =
      some "Simulation Complete. Finalizing Stream." := by
  constructor
  · show List.Chain' (· < ·)
      ((getExerciseVideoMessages polls).map milestoneIndex)
    have hbound : ∀ y ∈ (pollLoopMessages polls 0).map milestoneIndex,
        2 ≤ y ∧ y ≤ 6 := by
      intro y hy
      obtain ⟨m, hm, rfl⟩ := List.mem_map.mp hy
      obtain ⟨c, _, hc⟩ := pollLoopMessages_mem polls 0 hm
      exact pollMilestone_index_bounds hc
    have hform : (getExerciseVideoMessages polls).map milestoneIndex =
        0 :: 1 :: ((pollLoopMessages polls 0).map milestoneIndex ++ [7]) := by
      simp only [getExerciseVideoMessages, List.map_cons, List.map_append]
      rfl
    rw [hform]
    have htail : List.Chain' (· < ·)
        ((pollLoopMessages polls 0).map milestoneIndex ++ [7]) := by
      rw [List.chain'_append]
      refine ⟨pollLoopMessages_chain polls 0, List.chain'_singleton 7, ?_⟩
      intro x hx y hy
      simp only [List.head?_cons, Option.mem_def, Option.some.injEq] at hy
      subst hy
      have hxmem : x ∈ (pollLoopMessages polls 0).map milestoneIndex :=
        List.mem_of_getLast?_eq_some hx
      have := (hbound x hxmem).2
      omega
    refine List.chain'_cons'.mpr ⟨?_, List.chain'_cons'.mpr ⟨?_, htail⟩⟩
    · intro y hy
      simp only [List.head?_cons, Option.mem_def, Option.some.injEq] at hy
      omega
    · intro y hy
      cases hM : (pollLoopMessages polls 0).map milestoneIndex with
      | nil =>
        rw [hM] at hy
        simp only [List.nil_append, List.head?_cons, Option.mem_def,
          Option.some.injEq] at hy
        omega
      | cons a t =>
        rw [hM] at hy
        simp only [List.cons_append, List.head?_cons, Option.mem_def,
          Option.some.injEq] at hy
        subst hy
        have : a ∈ (pollLoopMessages polls 0).map milestoneIndex := by
          rw [hM]; exact List.mem_cons_self a t
        have := (hbound a this).1
        omega
  · show (getExerciseVideoMessages polls).getLast? =
      some "Simulation Complete. Finalizing Stream."
    have hassoc : getExerciseVideoMessages polls =
        ("Initializing Bio-Visual Simulation..." ::
         "Accessing Neural Compute Pipeline..." :: pollLoopMessages polls 0) ++
        ["Simulation Complete. Finalizing Stream."] := rfl
    rw [hassoc, List.getLast?_concat]
